import Mathlib

/-!
Verification of the HDB resale-price training script (src/train.py).

The script sweeps hyperparameters for a RandomForestRegressor, evaluates each
fitted model with the "within 10 percent" metric, tracks the best model seen in
three module-level variables, and finally pickles the best model to a file whose
name embeds the metric value and a timestamp.

The embedding below models:
  - numpy float semantics for the metric computation (division by zero yields
    infinities or NaN, comparisons with NaN are false, `round(3)` is
    round-half-to-even on the scaled value);
  - the sweep's best-state update (`train_model`, lines 118-121) as a fold over
    the list of iteration outcomes;
  - the persistence tail (`main` lines 57-58 and `save_best_model`) with an
    explicit file store and explicit failure points for serialization and the
    tracking backend;
  - the train/test split and the trainer, which live in external libraries
    (scikit-learn), modelled from the spec as deterministic seeded functions.
-/

/-! ### Rounding: numpy `round(3)` (round half to even on the scaled value) -/

/-- Round a rational to the nearest integer, ties to even (numpy/IEEE default). -/
def roundHalfEven (x : ℚ) : ℤ :=
  if x - Int.floor x < 1/2 then Int.floor x
  else if 1/2 < x - Int.floor x then Int.floor x + 1
  else if Int.floor x % 2 = 0 then Int.floor x else Int.floor x + 1

/-- Model of `np.float64.round(3)`: round to 3 decimal places. -/
def round3 (x : ℚ) : ℚ := (roundHalfEven (x * 1000) : ℚ) / 1000

/-! ### numpy float values: finite rationals extended with infinities and NaN -/

/-- A numpy floating-point value, abstracted: a finite rational, an infinity,
or NaN.  Finite arithmetic is exact rational arithmetic. -/
inductive NpFloat where
  | finite (q : ℚ)
  | posInf
  | negInf
  | nan
deriving DecidableEq

/-- numpy elementwise division `p / y`: division by zero yields a signed
infinity (or NaN for `0/0`) instead of raising an error. -/
def npDiv (p y : ℚ) : NpFloat :=
  if y = 0 then
    if 0 < p then .posInf else if p < 0 then .negInf else .nan
  else .finite (p / y)

/-- numpy subtraction of the constant 1 (infinities and NaN absorb). -/
def npSubOne : NpFloat → NpFloat
  | .finite q => .finite (q - 1)
  | x => x

/-- numpy absolute value. -/
def npAbs : NpFloat → NpFloat
  | .finite q => .finite |q|
  | .nan => .nan
  | _ => .posInf

/-- numpy comparison `x < 0.1`; any comparison with NaN is false. -/
def npLtPointOne : NpFloat → Bool
  | .finite q => decide (q < 1/10)
  | .negInf => true
  | _ => false

/-- Per-row relative error `abs(pred / actual - 1)` as computed on line 36. -/
def relErr (p y : ℚ) : NpFloat := npAbs (npSubOne (npDiv p y))

/-- numpy mean of a boolean array (True = 1, False = 0); the mean of an empty
array is NaN. -/
def boolMean (bs : List Bool) : NpFloat :=
  if bs.isEmpty then .nan else .finite ((bs.count true : ℚ) / bs.length)

/-- Apply `round(3)` to a numpy value (infinities and NaN pass through). -/
def npRound3 : NpFloat → NpFloat
  | .finite q => .finite (round3 q)
  | x => x

/-! ### The model and the evaluator `within_10` (lines 33-38) -/

/-- A test row: the numeric feature vector fed to the regressor. -/
abbrev Row := List ℚ

/-- A fitted model, abstracted as its (deterministic) prediction function. -/
abbrev Model := Row → ℚ

/-- Embedding of `within_10(model, X_test, y_test)` (lines 33-38):
predictions are `model.predict(X_test)`, the relative error is
`np.abs((preds / y_test) - 1)`, the result is `(err < 0.1).mean().round(3)`. -/
def within_10 (model : Model) (X_test : List Row) (y_test : List ℚ) : NpFloat :=
  let preds := X_test.map model
  let err := List.zipWith relErr preds y_test
  let w10 := err.map npLtPointOne
  npRound3 (boolMean w10)

/-- Spec-side count: rows whose relative error `|pred/actual - 1|` is strictly
below `0.10`, computed with exact rational division (requires nonzero actuals
to be meaningful). -/
def countWithin (model : Model) (X_test : List Row) (y_test : List ℚ) : ℕ :=
  (List.zip (X_test.map model) y_test).countP
    (fun py => decide (|py.1 / py.2 - 1| < 1/10))

/-- Code-side count: rows whose actual is nonzero and whose relative error is
strictly below `0.10`; rows with a zero actual never count (their numpy
relative error is infinite or NaN, which compares false against `0.1`). -/
def countWithinSafe (model : Model) (X_test : List Row) (y_test : List ℚ) : ℕ :=
  (List.zip (X_test.map model) y_test).countP
    (fun py => decide (py.2 ≠ 0 ∧ |py.1 / py.2 - 1| < 1/10))

/-! ### Sweep best-state (globals lines 28-30, update lines 118-121) -/

/-- The observable outcome of one sweep iteration: the metric logged as
`within_10`, the fitted model, and the wandb run id. -/
structure IterationOutcome where
  w10 : ℚ
  model : Model
  runId : ℕ

/-- The three module-level variables `best_model_performance`, `best_model`,
`best_run_id` (lines 28-30), each initialized to `None`. -/
structure SweepState where
  best_model_performance : Option ℚ
  best_model : Option Model
  best_run_id : Option ℕ

/-- Initial state: all three globals are `None`. -/
def initState : SweepState := ⟨none, none, none⟩

/-- Lines 118-121: `if best_model_performance is None or w10 >
best_model_performance:` assign all three globals from the current
iteration; otherwise leave the state untouched. -/
def updateBest (s : SweepState) (it : IterationOutcome) : SweepState :=
  match s.best_model_performance with
  | none => ⟨some it.w10, some it.model, some it.runId⟩
  | some b => if it.w10 > b then ⟨some it.w10, some it.model, some it.runId⟩ else s

/-- The sweep driver: `wandb.agent` invokes `train_model` once per iteration,
sequentially; the best-state after the sweep is a left fold of the updates. -/
def runSweep (its : List IterationOutcome) : SweepState :=
  its.foldl updateBest initState

/-- The fully-populated state recording iteration `b` as the current best. -/
def fullState (b : IterationOutcome) : SweepState :=
  ⟨some b.w10, some b.model, some b.runId⟩

/-- Keep `b` unless the challenger strictly beats it (ties keep `b`). -/
def pickBest (b : IterationOutcome) : Option IterationOutcome → IterationOutcome
  | none => b
  | some c => if c.w10 > b.w10 then c else b

/-- Reference selection: the first iteration achieving the maximum metric.
Stated from the spec sentence "BestModelState.model corresponds to the first
iteration achieving that max (no replacement on ties)". -/
def firstMax : List IterationOutcome → Option IterationOutcome
  | [] => none
  | it :: its => some (pickBest it (firstMax its))

theorem firstMax_cons (it : IterationOutcome) (its : List IterationOutcome) :
    firstMax (it :: its) = some (pickBest it (firstMax its)) := rfl

theorem pickBest_pickBest (b x : IterationOutcome) (o : Option IterationOutcome) :
    pickBest (pickBest b (some x)) o = pickBest b (some (pickBest x o)) := by
  cases o with
  | none => rfl
  | some c =>
    simp only [pickBest]
    rcases lt_trichotomy c.w10 x.w10 with h1 | h1 | h1 <;>
      rcases lt_trichotomy x.w10 b.w10 with h2 | h2 | h2 <;>
      rcases lt_trichotomy c.w10 b.w10 with h3 | h3 | h3 <;>
      simp [gt_iff_lt, h1, h2, h3, not_lt_of_le, le_of_lt] <;>
      first
        | rfl
        | (exfalso; linarith)

theorem foldl_updateBest_fullState (its : List IterationOutcome) :
    ∀ b : IterationOutcome,
      List.foldl updateBest (fullState b) its = fullState (pickBest b (firstMax its)) := by
  induction its with
  | nil => intro b; rfl
  | cons x xs ih =>
    intro b
    have hstep : updateBest (fullState b) x = fullState (pickBest b (some x)) := by
      simp only [updateBest, fullState, pickBest]
      split <;> rfl
    calc List.foldl updateBest (fullState b) (x :: xs)
        = List.foldl updateBest (updateBest (fullState b) x) xs := rfl
      _ = List.foldl updateBest (fullState (pickBest b (some x))) xs := by rw [hstep]
      _ = fullState (pickBest (pickBest b (some x)) (firstMax xs)) := ih _
      _ = fullState (pickBest b (some (pickBest x (firstMax xs)))) := by
            rw [pickBest_pickBest]
      _ = fullState (pickBest b (firstMax (x :: xs))) := rfl

theorem runSweep_cons (it : IterationOutcome) (its : List IterationOutcome) :
    runSweep (it :: its) = fullState (pickBest it (firstMax its)) := by
  have h0 : updateBest initState it = fullState it := rfl
  calc runSweep (it :: its)
      = List.foldl updateBest (updateBest initState it) its := rfl
    _ = List.foldl updateBest (fullState it) its := by rw [h0]
    _ = fullState (pickBest it (firstMax its)) := foldl_updateBest_fullState its it

theorem firstMax_mem {its : List IterationOutcome} {c : IterationOutcome}
    (h : firstMax its = some c) : c ∈ its := by
  induction its with
  | nil => simp [firstMax] at h
  | cons x xs ih =>
    rw [firstMax_cons] at h
    injection h with h
    cases hfm : firstMax xs with
    | none => rw [hfm] at h; simp only [pickBest] at h; subst h; exact List.mem_cons_self _ _
    | some b =>
      rw [hfm] at h
      simp only [pickBest] at h
      split at h
      · subst h; exact List.mem_cons_of_mem _ (ih hfm)
      · subst h; exact List.mem_cons_self _ _

theorem firstMax_isMax {its : List IterationOutcome} {c : IterationOutcome}
    (h : firstMax its = some c) : ∀ x ∈ its, x.w10 ≤ c.w10 := by
  induction its generalizing c with
  | nil => simp [firstMax] at h
  | cons a xs ih =>
    rw [firstMax_cons] at h
    injection h with h
    intro x hx
    rcases List.mem_cons.mp hx with hx | hx
    · subst hx
      cases hfm : firstMax xs with
      | none =>
        rw [hfm] at h
        simp only [pickBest] at h
        subst h
        exact le_rfl
      | some b =>
        rw [hfm] at h
        simp only [pickBest] at h
        split at h
        · next hgt => subst h; exact le_of_lt hgt
        · subst h; exact le_rfl
    · cases hfm : firstMax xs with
      | none =>
        exfalso
        cases xs with
        | nil => simp at hx
        | cons y ys => rw [firstMax_cons] at hfm; simp at hfm
      | some b =>
        have hxb : x.w10 ≤ b.w10 := ih hfm x hx
        rw [hfm] at h
        simp only [pickBest] at h
        split at h
        · subst h; exact hxb
        · next hng => subst h; exact le_trans hxb (not_lt.mp hng)

theorem firstMax_find {its : List IterationOutcome} {c : IterationOutcome}
    (h : firstMax its = some c) :
    its.find? (fun x => decide (x.w10 = c.w10)) = some c := by
  induction its generalizing c with
  | nil => simp [firstMax] at h
  | cons a xs ih =>
    rw [firstMax_cons] at h
    injection h with h
    cases hfm : firstMax xs with
    | none =>
      rw [hfm] at h
      simp only [pickBest] at h
      subst h
      simp [List.find?]
    | some b =>
      rw [hfm] at h
      simp only [pickBest] at h
      split at h
      · next hgt =>
        subst h
        have hne : ¬ ((fun x : IterationOutcome => decide (x.w10 = b.w10)) a = true) := by
          simp only [decide_eq_true_eq]
          intro heq
          rw [heq] at hgt
          exact lt_irrefl _ hgt
        have hstep : List.find? (fun x : IterationOutcome => decide (x.w10 = b.w10)) (a :: xs)
            = List.find? (fun x : IterationOutcome => decide (x.w10 = b.w10)) xs :=
          List.find?_cons_of_neg _ hne
        rw [hstep]
        exact ih hfm
      · subst h
        exact List.find?_cons_of_pos _ (by simp)

/-- Claim C1: after the sweep processes iterations yielding metrics m_1..m_n
(n ≥ 1), the stored best metric equals max(m_1..m_n), and the stored model and
run identifier are those of the first iteration achieving that maximum
(`find?` returns the first match); a tie with the current best does not
replace it, because the update on lines 118-121 requires `w10 >
best_model_performance`. -/
theorem sweep_best_model_update_law (its : List IterationOutcome) (h : its ≠ []) :
    ∃ c : IterationOutcome,
      c ∈ its
      ∧ (∀ x ∈ its, x.w10 ≤ c.w10)
      ∧ its.find? (fun x => decide (x.w10 = c.w10)) = some c
      ∧ runSweep its = ⟨some c.w10, some c.model, some c.runId⟩ := by
  cases its with
  | nil => exact absurd rfl h
  | cons it rest =>
    have hfm : firstMax (it :: rest) = some (pickBest it (firstMax rest)) := rfl
    exact ⟨pickBest it (firstMax rest), firstMax_mem hfm, firstMax_isMax hfm,
      firstMax_find hfm, runSweep_cons it rest⟩

/-- Witness for C1: a concrete three-iteration sweep in which the maximum 3/4
is achieved by the second and third iterations; the second one (model 1, run 2)
is kept. -/
theorem sweep_best_model_update_law_witness :
    ∃ c : IterationOutcome,
      c ∈ [IterationOutcome.mk (1/2) (fun _ => 0) 1,
           IterationOutcome.mk (3/4) (fun _ => 1) 2,
           IterationOutcome.mk (3/4) (fun _ => 2) 3]
      ∧ (∀ x ∈ [IterationOutcome.mk (1/2) (fun _ => 0) 1,
                IterationOutcome.mk (3/4) (fun _ => 1) 2,
                IterationOutcome.mk (3/4) (fun _ => 2) 3], x.w10 ≤ c.w10)
      ∧ ([IterationOutcome.mk (1/2) (fun _ => 0) 1,
          IterationOutcome.mk (3/4) (fun _ => 1) 2,
          IterationOutcome.mk (3/4) (fun _ => 2) 3].find?
            (fun x => decide (x.w10 = c.w10)) = some c)
      ∧ runSweep [IterationOutcome.mk (1/2) (fun _ => 0) 1,
                  IterationOutcome.mk (3/4) (fun _ => 1) 2,
                  IterationOutcome.mk (3/4) (fun _ => 2) 3]
          = ⟨some c.w10, some c.model, some c.runId⟩ :=
  sweep_best_model_update_law _ (by simp)

/-- Claim C10: at every point between sweep iterations (every state reachable
as `runSweep` of a prefix of the iteration list, hence every list here), the
three globals `best_model_performance`, `best_model`, `best_run_id` are either
all `None` or all set, and when set all three originate from one single
iteration: they are only ever assigned together on lines 119-121. -/
theorem best_state_consistency (its : List IterationOutcome) :
    runSweep its = ⟨none, none, none⟩
    ∨ ∃ c ∈ its, runSweep its = ⟨some c.w10, some c.model, some c.runId⟩ := by
  cases its with
  | nil => exact Or.inl rfl
  | cons it rest =>
    exact Or.inr ⟨pickBest it (firstMax rest), firstMax_mem rfl, runSweep_cons it rest⟩

/-! ### Evaluator characterization -/

theorem npLtPointOne_relErr (p y : ℚ) :
    npLtPointOne (relErr p y) = decide (y ≠ 0 ∧ |p / y - 1| < 1/10) := by
  by_cases hy : y = 0
  · subst hy
    rcases lt_trichotomy p 0 with hp | hp | hp
    · simp [relErr, npDiv, npSubOne, npAbs, npLtPointOne, hp, not_lt_of_lt hp]
    · subst hp
      simp [relErr, npDiv, npSubOne, npAbs, npLtPointOne]
    · simp [relErr, npDiv, npSubOne, npAbs, npLtPointOne, hp, not_lt_of_lt hp]
  · simp [relErr, npDiv, npSubOne, npAbs, npLtPointOne, hy]

theorem count_w10_eq_countP (ps ys : List ℚ) :
    ((List.zipWith relErr ps ys).map npLtPointOne).count true
      = (List.zip ps ys).countP (fun py => decide (py.2 ≠ 0 ∧ |py.1 / py.2 - 1| < 1/10)) := by
  induction ps generalizing ys with
  | nil => simp
  | cons p ps ih =>
    cases ys with
    | nil => simp
    | cons yy ys =>
      simp [List.count_cons, List.countP_cons, ih, npLtPointOne_relErr]

theorem boolMean_ne_nil (bs : List Bool) (h : bs ≠ []) :
    boolMean bs = .finite ((bs.count true : ℚ) / bs.length) := by
  unfold boolMean
  rw [if_neg]
  simpa [List.isEmpty_iff] using h

/-- The metric as the code computes it, for aligned nonempty inputs: the
rounded fraction of rows with nonzero actual and relative error below 0.10
(rows with a zero actual always count as misses). -/
theorem within_10_eq_countWithinSafe (model : Model) (X_test : List Row)
    (y_test : List ℚ) (hlen : X_test.length = y_test.length) (hne : X_test ≠ []) :
    within_10 model X_test y_test
      = .finite (round3 ((countWithinSafe model X_test y_test : ℚ) / X_test.length)) := by
  have hzl : (List.zipWith relErr (X_test.map model) y_test).length = X_test.length := by
    rw [List.length_zipWith, List.length_map, ← hlen, min_self]
  have hnz : X_test.length ≠ 0 := fun h0 => hne (List.length_eq_zero.mp h0)
  have hne2 : (List.zipWith relErr (X_test.map model) y_test).map npLtPointOne ≠ [] := by
    intro hh
    apply hnz
    have hlen2 := congrArg List.length hh
    simpa [hzl] using hlen2
  show npRound3 (boolMean ((List.zipWith relErr (X_test.map model) y_test).map npLtPointOne))
      = _
  rw [boolMean_ne_nil _ hne2]
  simp only [npRound3]
  rw [count_w10_eq_countP, List.length_map, hzl]
  rfl

/-! ### Rounding bounds -/

theorem roundHalfEven_cases (x : ℚ) :
    roundHalfEven x = Int.floor x ∨ roundHalfEven x = Int.floor x + 1 := by
  unfold roundHalfEven
  split_ifs <;> simp

theorem roundHalfEven_nonneg (x : ℚ) (h : 0 ≤ x) : 0 ≤ roundHalfEven x := by
  have hf : 0 ≤ Int.floor x := Int.floor_nonneg.mpr h
  rcases roundHalfEven_cases x with hc | hc <;> omega

theorem roundHalfEven_le (x : ℚ) (N : ℤ) (h : x ≤ (N : ℚ)) : roundHalfEven x ≤ N := by
  have hfl : (Int.floor x : ℚ) ≤ x := Int.floor_le x
  have hfN : Int.floor x ≤ N := by exact_mod_cast le_trans hfl h
  unfold roundHalfEven
  split_ifs with h1 h2 h3
  · exact hfN
  · have hlt : (Int.floor x : ℚ) < (N : ℚ) := by linarith
    have : Int.floor x < N := by exact_mod_cast hlt
    omega
  · exact hfN
  · have hge : ¬ (x - Int.floor x < 1/2) := h1
    have hlt : (Int.floor x : ℚ) < (N : ℚ) := by
      push_neg at hge
      linarith
    have : Int.floor x < N := by exact_mod_cast hlt
    omega

theorem round3_nonneg (x : ℚ) (h : 0 ≤ x) : 0 ≤ round3 x := by
  unfold round3
  have h0 : 0 ≤ roundHalfEven (x * 1000) :=
    roundHalfEven_nonneg _ (by positivity)
  have h0q : (0 : ℚ) ≤ (roundHalfEven (x * 1000) : ℚ) := by exact_mod_cast h0
  positivity

theorem round3_le_one (x : ℚ) (h : x ≤ 1) : round3 x ≤ 1 := by
  unfold round3
  have h0 : roundHalfEven (x * 1000) ≤ 1000 :=
    roundHalfEven_le _ 1000 (by push_cast; linarith)
  have h0q : (roundHalfEven (x * 1000) : ℚ) ≤ 1000 := by exact_mod_cast h0
  linarith

theorem round3_mul_1000_den (x : ℚ) : (round3 x * 1000).den = 1 := by
  have : round3 x * 1000 = ((roundHalfEven (x * 1000) : ℤ) : ℚ) := by
    unfold round3
    field_simp
  rw [this]
  exact Rat.den_intCast _

/-- Claim C2: for every fitted model and aligned nonempty test set with nonzero
actuals, the evaluator's score is exactly the fraction of test rows whose
relative error `|prediction / actual - 1|` is strictly below 0.10, rounded to
3 decimal places. -/
theorem within_10_metric_definition (model : Model) (X_test : List Row)
    (y_test : List ℚ) (hlen : X_test.length = y_test.length) (hne : X_test ≠ [])
    (hz : ∀ v ∈ y_test, v ≠ 0) :
    within_10 model X_test y_test
      = .finite (round3 ((countWithin model X_test y_test : ℚ) / X_test.length)) := by
  rw [within_10_eq_countWithinSafe model X_test y_test hlen hne]
  have hcnt : countWithinSafe model X_test y_test = countWithin model X_test y_test := by
    unfold countWithinSafe countWithin
    apply List.countP_congr
    intro py hpy
    have hy : py.2 ≠ 0 := hz py.2 (List.of_mem_zip hpy).2
    simp [hy]
  rw [hcnt]

/-- Witness for C2: model predicting the constant 1 on test rows `[[1],[2]]`
with actuals `[1, 2]`: one of the two rows is within 10 percent, and the
score is `round3 (1/2) = 0.5`. -/
theorem within_10_metric_definition_witness :
    within_10 (fun _ => (1 : ℚ)) [[1], [2]] [1, 2]
      = .finite (round3 ((countWithin (fun _ => (1 : ℚ)) [[1], [2]] [1, 2] : ℚ)
          / ([[1], [2]] : List Row).length)) :=
  within_10_metric_definition (fun _ => (1 : ℚ)) [[1], [2]] [1, 2] rfl
    (by simp) (by decide)

/-- Counterexample to claim C3: a test set whose second actual value is
exactly zero does not make scoring fail: numpy turns the division by zero into
an infinite relative error, the comparison `inf < 0.1` is false, and the
evaluator returns the finite metric 1/2 (the zero-actual row counted as a
miss).  No `DivisionUndefined` (or any other) error is raised anywhere in
`within_10`. -/
theorem scoring_zero_actual_counterexample :
    within_10 (fun _ => (1 : ℚ)) [[1], [1]] [1, 0] = .finite (1/2) := by
  have h := within_10_eq_countWithinSafe (fun _ => (1 : ℚ)) [[1], [1]] [1, 0]
    rfl (by simp)
  rw [h]
  norm_num [countWithinSafe, List.countP, List.countP.go, round3, roundHalfEven]

/-- Claim C3 amended: scoring a test set containing a zero actual value does
not fail; the metric is still returned, equal to the rounded fraction of rows
with nonzero actual and relative error below 0.10, because every row with a
zero actual produces an infinite or NaN relative error that compares false
against 0.1 and therefore counts as a miss. -/
theorem scoring_zero_actual_amended (model : Model) (X_test : List Row)
    (y_test : List ℚ) (hlen : X_test.length = y_test.length) (hne : X_test ≠ []) :
    within_10 model X_test y_test
      = .finite (round3 ((countWithinSafe model X_test y_test : ℚ) / X_test.length))
    ∧ ∀ p : ℚ, npLtPointOne (relErr p 0) = false := by
  refine ⟨within_10_eq_countWithinSafe model X_test y_test hlen hne, ?_⟩
  intro p
  rw [npLtPointOne_relErr]
  simp

/-- Witness for the amended C3: the concrete two-row test set with a zero
actual from the counterexample. -/
theorem scoring_zero_actual_amended_witness :
    within_10 (fun _ => (1 : ℚ)) [[1], [1]] [1, 0]
      = .finite (round3 ((countWithinSafe (fun _ => (1 : ℚ)) [[1], [1]] [1, 0] : ℚ)
          / ([[1], [1]] : List Row).length))
    ∧ ∀ p : ℚ, npLtPointOne (relErr p 0) = false :=
  scoring_zero_actual_amended (fun _ => (1 : ℚ)) [[1], [1]] [1, 0] rfl (by simp)

/-- Claim C7: for every aligned nonempty test set with no zero actual values,
the within-10 metric is a finite value in the closed interval [0,1], and it
carries exactly 3 decimal places: scaled by 1000 it is an integer. -/
theorem metric_range_and_precision (model : Model) (X_test : List Row)
    (y_test : List ℚ) (hlen : X_test.length = y_test.length) (hne : X_test ≠ [])
    (hz : ∀ v ∈ y_test, v ≠ 0) :
    ∃ q : ℚ, within_10 model X_test y_test = .finite q
      ∧ 0 ≤ q ∧ q ≤ 1 ∧ (q * 1000).den = 1 := by
  refine ⟨round3 ((countWithinSafe model X_test y_test : ℚ) / X_test.length),
    within_10_eq_countWithinSafe model X_test y_test hlen hne, ?_, ?_,
    round3_mul_1000_den _⟩
  · apply round3_nonneg
    positivity
  · apply round3_le_one
    have hnz : 0 < X_test.length := List.length_pos.mpr hne
    have hle : countWithinSafe model X_test y_test ≤ X_test.length := by
      unfold countWithinSafe
      calc (List.zip (X_test.map model) y_test).countP _
          ≤ (List.zip (X_test.map model) y_test).length := List.countP_le_length _
        _ = min (X_test.map model).length y_test.length := List.length_zip _ _
        _ = X_test.length := by rw [List.length_map, ← hlen, min_self]
    rw [div_le_one (by exact_mod_cast hnz)]
    exact_mod_cast hle

/-- Witness for C7: the concrete test set from the C2 witness. -/
theorem metric_range_and_precision_witness :
    ∃ q : ℚ, within_10 (fun _ => (1 : ℚ)) [[1], [2]] [1, 2] = .finite q
      ∧ 0 ≤ q ∧ q ≤ 1 ∧ (q * 1000).den = 1 :=
  metric_range_and_precision (fun _ => (1 : ℚ)) [[1], [2]] [1, 2] rfl
    (by simp) (by decide)

/-! ### Persistence (`main` lines 57-58, `save_best_model` lines 126-146) -/

/-- The local models directory, abstracted as an association list from file
paths (character lists) to file contents (abstract pickled bytes, one natural
number per write).  A later entry for the same path shadows an earlier one,
matching `open(path, "wb")` truncating and rewriting the file. -/
abbrev FileStore := List (List Char × ℕ)

/-- Write (create or truncate-and-overwrite) a file. -/
def fsWrite (fs : FileStore) (path : List Char) (v : ℕ) : FileStore :=
  (path, v) :: fs

/-- Read a file: the most recent write to the path wins. -/
def fsGet : FileStore → List Char → Option ℕ
  | [], _ => none
  | (p, v) :: rest, q => if p = q then some v else fsGet rest q

/-- Line 130: `f"best_model_w10_{best_model_performance}_date_{timestamp}.pkl"`.
The rendered metric and the `%Y%m%d_%H%M%S` timestamp are character lists. -/
def modelFilename (mStr ts : List Char) : List Char :=
  "best_model_w10_".data ++ mStr ++ "_date_".data ++ ts ++ ".pkl".data

/-- Line 131: `model_path = "models/" + model_filename`. -/
def modelPath (mStr ts : List Char) : List Char :=
  "models/".data ++ modelFilename mStr ts

/-- The two failure kinds of `save_best_model`: pickling the model to disk, or
reaching the tracking backend (`wandb.init(resume)` / `log_artifact`). -/
inductive PersistenceError where
  | serialization
  | tracking
deriving DecidableEq

/-- External conditions for one persistence attempt: does serialization
succeed, and is the tracking backend reachable. -/
structure PersistEnv where
  serOk : Bool
  trackOk : Bool

/-- Embedding of `save_best_model` (lines 126-146).  `open(model_path, "wb")`
creates (or truncates) the file before anything else; `pickle.dump` then
writes the content; only afterwards are `wandb.init(resume="must")` and
`wandb.log_artifact` attempted.  Any exception propagates (there is no
try/except), and the file writes that already happened stay in the store. -/
def save_best_model (env : PersistEnv) (fs : FileStore) (mStr ts : List Char)
    (content : ℕ) : Except PersistenceError Unit × FileStore :=
  let path := modelPath mStr ts
  let fs1 := fsWrite fs path 0
  if env.serOk then
    let fs2 := fsWrite fs1 path content
    if env.trackOk then (.ok (), fs2)
    else (.error .tracking, fs2)
  else (.error .serialization, fs1)

/-- The tail of `main` (lines 57-58) together with the process exit status:
`if best_model is not None: save_best_model()`.  Returns
(exit code, number of `save_best_model` invocations, final file store).
Exceptions from `save_best_model` are unhandled, so they terminate the
process with a nonzero exit code; otherwise the exit code is 0. -/
def runMain (its : List IterationOutcome) (env : PersistEnv) (fs : FileStore)
    (mStr ts : List Char) (content : ℕ) : ℕ × ℕ × FileStore :=
  match (runSweep its).best_model with
  | none => (0, 0, fs)
  | some _ =>
    match save_best_model env fs mStr ts content with
    | (.ok _, fs2) => (0, 1, fs2)
    | (.error _, fs2) => (1, 1, fs2)

theorem runSweep_best_model_isSome (its : List IterationOutcome) :
    (runSweep its).best_model.isSome = !its.isEmpty := by
  cases its with
  | nil => rfl
  | cons it rest => rw [runSweep_cons]; rfl

/-- Claim C4: with serialization and tracking both healthy (normal
completion), `save_best_model` is invoked exactly once when the best-model
state is non-empty and never when it is empty; the best-model state is
non-empty exactly when at least one iteration produced a metric; and the exit
code is 0 in both cases (persistence is simply skipped when there is no best
model). -/
theorem persistence_invocation_law (its : List IterationOutcome) (fs : FileStore)
    (mStr ts : List Char) (content : ℕ) :
    ((runMain its ⟨true, true⟩ fs mStr ts content).2.1
        = if (runSweep its).best_model.isSome then 1 else 0)
    ∧ (runMain its ⟨true, true⟩ fs mStr ts content).1 = 0
    ∧ (runSweep its).best_model.isSome = !its.isEmpty := by
  refine ⟨?_, ?_, runSweep_best_model_isSome its⟩ <;>
  · unfold runMain
    cases h : (runSweep its).best_model with
    | none => simp
    | some m => simp [save_best_model]

/-- Counterexample to claim C9: when the tracking backend cannot be reached
during artifact registration, `save_best_model` does fail fatally, but the
pickled model file has already been written (lines 133-134 run before
`wandb.init(resume="must")` on line 136), so an artifact IS left behind. -/
theorem persistence_leaves_artifact_counterexample :
    (save_best_model ⟨true, false⟩ [] "0.835".data "20240101_120000".data 7).1
        = .error .tracking
    ∧ fsGet (save_best_model ⟨true, false⟩ [] "0.835".data "20240101_120000".data 7).2
        (modelPath "0.835".data "20240101_120000".data) = some 7 := by
  constructor
  · rfl
  · simp [save_best_model, fsWrite, fsGet]

/-- Claim C9 amended: a persistence failure (serialization failure or
unreachable tracking backend) is fatal with no retry: the single
`save_best_model` call raises, `main` does not catch, and the process exits
nonzero.  It is not atomic, however: the model file created before the
failure point remains on disk (with full content when tracking registration
failed, truncated when pickling itself failed). -/
theorem persistence_failure_fatal_amended (its : List IterationOutcome)
    (env : PersistEnv) (fs : FileStore) (mStr ts : List Char) (content : ℕ)
    (hsome : (runSweep its).best_model.isSome = true)
    (hfail : env.serOk = false ∨ env.trackOk = false) :
    (runMain its env fs mStr ts content).1 = 1
    ∧ (runMain its env fs mStr ts content).2.1 = 1
    ∧ fsGet (runMain its env fs mStr ts content).2.2 (modelPath mStr ts) ≠ none := by
  obtain ⟨s, t⟩ := env
  unfold runMain
  cases h : (runSweep its).best_model with
  | none => rw [h] at hsome; simp at hsome
  | some m =>
    cases s <;> cases t <;>
      simp [save_best_model, fsWrite, fsGet] at hfail ⊢

/-- Witness for the amended C9: one successful iteration, then the tracking
backend is down during persistence. -/
theorem persistence_failure_fatal_amended_witness :
    (runMain [IterationOutcome.mk (1/2) (fun _ => 0) 1] ⟨true, false⟩ []
        "0.835".data "20240101_120000".data 7).1 = 1
    ∧ (runMain [IterationOutcome.mk (1/2) (fun _ => 0) 1] ⟨true, false⟩ []
        "0.835".data "20240101_120000".data 7).2.1 = 1
    ∧ fsGet (runMain [IterationOutcome.mk (1/2) (fun _ => 0) 1] ⟨true, false⟩ []
        "0.835".data "20240101_120000".data 7).2.2
        (modelPath "0.835".data "20240101_120000".data) ≠ none :=
  persistence_failure_fatal_amended [IterationOutcome.mk (1/2) (fun _ => 0) 1]
    ⟨true, false⟩ [] "0.835".data "20240101_120000".data 7 rfl (Or.inr rfl)

/-- Counterexample to claim C8: two distinct persistence invocations (they
pickle different model contents, 1 and 2) that fall in the same second with
the same rendered best metric build the same filename, and the second
invocation overwrites the first artifact: afterwards the path holds content 2
and content 1 is gone.  `open(path, "wb")` gives no protection against an
existing file. -/
theorem artifact_overwrite_counterexample :
    (fsGet (save_best_model ⟨true, true⟩ [] "0.835".data "20240101_120000".data 1).2
        (modelPath "0.835".data "20240101_120000".data) = some 1)
    ∧ (fsGet (save_best_model ⟨true, true⟩
          (save_best_model ⟨true, true⟩ [] "0.835".data "20240101_120000".data 1).2
          "0.835".data "20240101_120000".data 2).2
        (modelPath "0.835".data "20240101_120000".data) = some 2) := by
  constructor <;> simp [save_best_model, fsWrite, fsGet]

/-- Claim C8 amended: the artifact file name embeds the rendered best metric
value and the completion timestamp at second granularity, and it is injective
in that pair (timestamps have the fixed `%Y%m%d_%H%M%S` length 15), so two
persistence invocations differing in metric string or in second write
different files and do not overwrite each other; only invocations sharing
both the metric string and the second reuse the name (and then the later one
does overwrite, as the counterexample shows). -/
theorem artifact_filename_amended (m1 m2 t1 t2 : List Char)
    (h1 : t1.length = 15) (h2 : t2.length = 15) :
    (modelPath m1 t1 = modelPath m2 t2 ↔ m1 = m2 ∧ t1 = t2)
    ∧ ∀ (fs : FileStore) (c1 c2 : ℕ), (m1 ≠ m2 ∨ t1 ≠ t2) →
        fsGet (fsWrite (fsWrite fs (modelPath m1 t1) c1) (modelPath m2 t2) c2)
          (modelPath m1 t1) = some c1 := by
  have hiff : modelPath m1 t1 = modelPath m2 t2 ↔ m1 = m2 ∧ t1 = t2 := by
    constructor
    · intro heq
      unfold modelPath modelFilename at heq
      have heq2 : "best_model_w10_".data ++ m1 ++ "_date_".data ++ t1 ++ ".pkl".data
          = "best_model_w10_".data ++ m2 ++ "_date_".data ++ t2 ++ ".pkl".data :=
        List.append_cancel_left heq
      have hlen : m1.length = m2.length := by
        have hl := congrArg List.length heq2
        simp only [List.length_append] at hl
        omega
      rw [List.append_assoc, List.append_assoc, List.append_assoc,
        List.append_assoc, List.append_assoc, List.append_assoc] at heq2
      have heq3 : m1 ++ ("_date_".data ++ (t1 ++ ".pkl".data))
          = m2 ++ ("_date_".data ++ (t2 ++ ".pkl".data)) :=
        List.append_cancel_left heq2
      obtain ⟨hm, hrest⟩ := List.append_inj heq3 hlen
      have ht1 : t1 ++ ".pkl".data = t2 ++ ".pkl".data :=
        List.append_cancel_left hrest
      have ht : t1 = t2 := List.append_cancel_right ht1
      exact ⟨hm, ht⟩
    · rintro ⟨hm, ht⟩
      rw [hm, ht]
  refine ⟨hiff, ?_⟩
  intro fs c1 c2 hne
  have hpath : modelPath m2 t2 ≠ modelPath m1 t1 := by
    intro hp
    rcases hiff.mp hp.symm with ⟨hm, ht⟩
    rcases hne with hne | hne
    · exact hne hm
    · exact hne ht
  simp [fsWrite, fsGet, hpath]

/-- Witness for the amended C8: two concrete invocations with different
rendered metrics in the same second; their files coexist. -/
theorem artifact_filename_amended_witness :
    (modelPath "0.9".data "20240101_120000".data
        = modelPath "0.85".data "20240101_120000".data
      ↔ "0.9".data = "0.85".data
        ∧ "20240101_120000".data = "20240101_120000".data)
    ∧ ∀ (fs : FileStore) (c1 c2 : ℕ),
        ("0.9".data ≠ "0.85".data ∨ "20240101_120000".data ≠ "20240101_120000".data) →
        fsGet (fsWrite (fsWrite fs (modelPath "0.9".data "20240101_120000".data) c1)
            (modelPath "0.85".data "20240101_120000".data) c2)
          (modelPath "0.9".data "20240101_120000".data) = some c1 :=
  artifact_filename_amended "0.9".data "0.85".data "20240101_120000".data
    "20240101_120000".data rfl rfl

/-! ### SplitProvider (line 86), modelled from the spec -/

/-- Modelled from the spec: the seeded pseudo-random stream behind
`train_test_split(..., shuffle=True, random_state=0)`.  The actual generator
(numpy MT19937) lives in scikit-learn, outside this repository; any
deterministic next-state function represents it, here a standard linear
congruential step. -/
def lcgNext (s : ℕ) : ℕ := (1103515245 * s + 12345) % 2147483648

/-- Fuel-indexed Fisher-Yates extraction shuffle: repeatedly pick the
pseudo-random position `i`, move that element to the output, and continue on
the remainder. -/
def fyShuffleAux {α : Type} : ℕ → ℕ → List α → List α
  | 0, _, _ => []
  | _ + 1, _, [] => []
  | fuel + 1, s, x :: xs =>
    (x :: xs).get ⟨lcgNext s % (x :: xs).length, Nat.mod_lt _ (Nat.succ_pos xs.length)⟩
      :: fyShuffleAux fuel (lcgNext s) ((x :: xs).eraseIdx (lcgNext s % (x :: xs).length))

/-- Modelled from the spec: "Splitting shuffles rows using the given seed
before partitioning — reproducible across runs with the same seed and input
size."  A deterministic seeded shuffle of a list. -/
def fyShuffle {α : Type} (s : ℕ) (l : List α) : List α := fyShuffleAux l.length s l

theorem fyShuffleAux_perm {α : Type} [DecidableEq α] :
    ∀ (fuel s : ℕ) (l : List α), l.length ≤ fuel → (fyShuffleAux fuel s l).Perm l := by
  intro fuel
  induction fuel with
  | zero =>
    intro s l h
    have hl : l = [] := List.length_eq_zero.mp (Nat.le_zero.mp h)
    subst hl
    rfl
  | succ fuel ih =>
    intro s l h
    cases l with
    | nil => rfl
    | cons x xs =>
      have hi : lcgNext s % (x :: xs).length < (x :: xs).length :=
        Nat.mod_lt _ (Nat.succ_pos xs.length)
      have hle : ((x :: xs).eraseIdx (lcgNext s % (x :: xs).length)).length ≤ fuel := by
        have hplus := List.length_eraseIdx_add_one hi
        simp only [List.length_cons] at hplus h ⊢
        omega
      have hp1 := ih (lcgNext s) ((x :: xs).eraseIdx (lcgNext s % (x :: xs).length)) hle
      have hp2 : ((x :: xs).eraseIdx (lcgNext s % (x :: xs).length)).Perm
          ((x :: xs).erase ((x :: xs).get ⟨lcgNext s % (x :: xs).length, hi⟩)) :=
        (List.erase_getElem hi).symm
      have hmem : (x :: xs).get ⟨lcgNext s % (x :: xs).length, hi⟩ ∈ (x :: xs) :=
        List.get_mem _ _ hi
      have hp3 := (List.perm_cons_erase hmem).symm
      show ((x :: xs).get ⟨lcgNext s % (x :: xs).length, hi⟩
          :: fyShuffleAux fuel (lcgNext s)
              ((x :: xs).eraseIdx (lcgNext s % (x :: xs).length))).Perm (x :: xs)
      exact ((hp1.trans hp2).cons _).trans hp3

theorem fyShuffle_perm {α : Type} [DecidableEq α] (s : ℕ) (l : List α) :
    (fyShuffle s l).Perm l :=
  fyShuffleAux_perm l.length s l (le_refl _)

/-- Modelled from the spec: `train_test_split(X, y, test_size=0.1,
shuffle=True, random_state=0)` (line 86) over row indices `0..n-1`: shuffle
the indices with the seeded generator, take `ceil(test_size * n)` of them as
the test rows and the rest as the train rows.  scikit-learn itself is outside
this repository. -/
def train_test_split (n : ℕ) (test_size : ℚ) (random_state : ℕ) :
    List ℕ × List ℕ :=
  let n_test := Nat.ceil (test_size * n)
  let perm := fyShuffle random_state (List.range n)
  (perm.drop n_test, perm.take n_test)

/-- Claim C5: for every table size, test fraction and seed, the train and test
row-index lists are disjoint, together they are a permutation of all row
indices, and re-running the split with the same arguments yields the identical
partition (the split is a pure function of (n, test fraction, seed)). -/
theorem split_partition_invariant (n : ℕ) (f : ℚ) (seed : ℕ) :
    ((train_test_split n f seed).1 ++ (train_test_split n f seed).2).Perm (List.range n)
    ∧ (train_test_split n f seed).1.Disjoint (train_test_split n f seed).2
    ∧ train_test_split n f seed = train_test_split n f seed := by
  have hperm : (fyShuffle seed (List.range n)).Perm (List.range n) :=
    fyShuffle_perm seed (List.range n)
  have hnodup : (fyShuffle seed (List.range n)).Nodup :=
    hperm.symm.nodup (List.nodup_range n)
  refine ⟨?_, ?_, rfl⟩
  · have h1 : ((fyShuffle seed (List.range n)).drop (Nat.ceil (f * n))
        ++ (fyShuffle seed (List.range n)).take (Nat.ceil (f * n))).Perm
          ((fyShuffle seed (List.range n)).take (Nat.ceil (f * n))
            ++ (fyShuffle seed (List.range n)).drop (Nat.ceil (f * n))) :=
      List.perm_append_comm
    have h2 : ((fyShuffle seed (List.range n)).take (Nat.ceil (f * n))
        ++ (fyShuffle seed (List.range n)).drop (Nat.ceil (f * n))).Perm
          (fyShuffle seed (List.range n)) := by
      rw [List.take_append_drop]
    exact (h1.trans h2).trans hperm
  · exact List.disjoint_symm
      (List.disjoint_take_drop hnodup (le_refl (Nat.ceil (f * n))))

/-! ### Trainer (lines 89-106) -/

/-- The four hyperparameters one sweep iteration receives from the sweep
backend (lines 89-92). -/
structure HyperparameterConfig where
  n_estimators : ℕ
  max_depth : ℕ
  min_samples_leaf : ℕ
  min_samples_split : ℕ

/-- The full parameterization of the regressor: the four swept
hyperparameters plus the internal random seed. -/
structure RFParams where
  n_estimators : ℕ
  max_depth : ℕ
  min_samples_leaf : ℕ
  min_samples_split : ℕ
  random_state : ℕ

/-- Lines 94-100: the regressor is constructed from the four swept
hyperparameters and the fixed internal seed `random_state=42`, independent of
the split seed (0, line 86) and of everything else. -/
def RandomForestRegressor (c : HyperparameterConfig) : RFParams :=
  ⟨c.n_estimators, c.max_depth, c.min_samples_leaf, c.min_samples_split, 42⟩

/-- The train/test data one iteration works on after the split. -/
structure SplitData where
  X_train : List Row
  y_train : List ℚ
  X_test : List Row
  y_test : List ℚ

/-- One iteration's training-and-evaluation (lines 94-106) for a given fit
routine: construct the regressor from the config with the fixed internal
seed, fit it on the training data, and score it on the test data with
`within_10`.  The fit routine itself is scikit-learn code outside this
repository; it is modelled from the spec as an arbitrary pure function of
the parameters and the training data (no hidden inputs). -/
def iterationMetric (fit : RFParams → List Row → List ℚ → Model)
    (c : HyperparameterConfig) (d : SplitData) : NpFloat :=
  within_10 (fit (RandomForestRegressor c) d.X_train d.y_train) d.X_test d.y_test

/-- Claim C6: for every deterministic fit routine and every pair of iterations
with identical hyperparameter configurations and identical split data,
training and evaluation produce the same metric; the model's internal random
seed is the constant 42, distinct from the split seed 0. -/
theorem trainer_determinism (fit : RFParams → List Row → List ℚ → Model)
    (c1 c2 : HyperparameterConfig) (d1 d2 : SplitData)
    (hc : c1 = c2) (hd : d1 = d2) :
    iterationMetric fit c1 d1 = iterationMetric fit c2 d2
    ∧ (RandomForestRegressor c1).random_state = 42
    ∧ (RandomForestRegressor c1).random_state ≠ 0 := by
  subst hc
  subst hd
  exact ⟨rfl, rfl, Nat.succ_ne_zero 41⟩

/-- Witness for C6: two iterations sharing the configuration
(n_estimators 100, max_depth 5, min_samples_leaf 1, min_samples_split 2) and
the same one-row split data. -/
theorem trainer_determinism_witness :
    iterationMetric (fun p _ _ => fun _ => (p.n_estimators : ℚ))
        ⟨100, 5, 1, 2⟩ ⟨[[1]], [1], [[1]], [100]⟩
      = iterationMetric (fun p _ _ => fun _ => (p.n_estimators : ℚ))
        ⟨100, 5, 1, 2⟩ ⟨[[1]], [1], [[1]], [100]⟩
    ∧ (RandomForestRegressor ⟨100, 5, 1, 2⟩).random_state = 42
    ∧ (RandomForestRegressor ⟨100, 5, 1, 2⟩).random_state ≠ 0 :=
  trainer_determinism (fun p _ _ => fun _ => (p.n_estimators : ℚ))
    ⟨100, 5, 1, 2⟩ ⟨100, 5, 1, 2⟩ ⟨[[1]], [1], [[1]], [100]⟩ ⟨[[1]], [1], [[1]], [100]⟩
    rfl rfl
